import Mathlib

/-!
# CoreRT native runtime: thread control block and JIT host

A shallow embedding of `src/Native/Runtime/thread.h` and
`src/Native/jitinterface/jithost.cpp`.

Conventions of the embedding:
* pointers are natural numbers, the null pointer is `0`;
* `UInt32` words are natural numbers below `2 ^ 32`;
* a C `int` is an `Int`, wrapped to 32 bits where the code does arithmetic on it;
* a heap buffer is an `Option (List Nat)`: `none` is the null pointer, `some cells` a block
  holding `cells`.
-/

set_option autoImplicit false

/-! ## thread.h: preprocessor configuration and layout -/

/-- The target architectures the `#if` ladder of thread.h distinguishes. -/
inductive Arch where
  | X86
  | ARM
  | AMD64
  | ARM64
  deriving DecidableEq, Repr

/-- The line `#define KEEP_THREAD_LAYOUT_CONSTANT` is unconditional in thread.h. -/
def KEEP_THREAD_LAYOUT_CONSTANT : Bool := true

/-- The `#if` ladder defining `SIZEOF_ALLOC_CONTEXT`, with both preprocessor symbols it tests
taken as arguments (`true` = defined). -/
def SIZEOF_ALLOC_CONTEXT_ladder (arch : Arch) (FEATURE_SVR_GC keepLayout : Bool) : Nat :=
  match arch with
  | Arch.X86 | Arch.ARM => if FEATURE_SVR_GC || keepLayout then 40 else 28
  | Arch.AMD64 | Arch.ARM64 => if FEATURE_SVR_GC || keepLayout then 56 else 40

/-- The value of `SIZEOF_ALLOC_CONTEXT` as thread.h computes it: the ladder evaluated with
`KEEP_THREAD_LAYOUT_CONSTANT` as the header defines it. -/
def SIZEOF_ALLOC_CONTEXT (arch : Arch) (FEATURE_SVR_GC : Bool) : Nat :=
  SIZEOF_ALLOC_CONTEXT_ladder arch FEATURE_SVR_GC KEEP_THREAD_LAYOUT_CONSTANT

/-- Size in bytes of a data pointer (`PTR_VOID`) on each architecture. -/
def sizeofPointer : Arch → Nat
  | Arch.X86 | Arch.ARM => 4
  | Arch.AMD64 | Arch.ARM64 => 8

/-- Round `offset` up to the next multiple of `align`, as a C compiler places a member. -/
def alignUp (offset align : Nat) : Nat :=
  (offset + align - 1) / align * align

/-- Byte offset of `ThreadBuffer::m_rgbAllocContextBuffer`, the first member. -/
def ThreadBuffer.offsetof_m_rgbAllocContextBuffer : Nat := 0

/-- Byte offset of `ThreadBuffer::m_ThreadStateFlags`: a `UInt32` placed after the
`UInt8[SIZEOF_ALLOC_CONTEXT]` buffer. -/
def ThreadBuffer.offsetof_m_ThreadStateFlags (arch : Arch) (FEATURE_SVR_GC : Bool) : Nat :=
  alignUp (ThreadBuffer.offsetof_m_rgbAllocContextBuffer + SIZEOF_ALLOC_CONTEXT arch FEATURE_SVR_GC) 4

/-- Byte offset of `ThreadBuffer::m_pTransitionFrame`: a pointer placed after the 4-byte
`m_ThreadStateFlags`. -/
def ThreadBuffer.offsetof_m_pTransitionFrame (arch : Arch) (FEATURE_SVR_GC : Bool) : Nat :=
  alignUp (ThreadBuffer.offsetof_m_ThreadStateFlags arch FEATURE_SVR_GC + 4) (sizeofPointer arch)

/-! ## thread.h: enumerations -/

/-- The enum `SyncRequestResult`. -/
inductive SyncRequestResult where
  | TryAgain
  | SuccessUnmanaged
  | SuccessManaged
  deriving DecidableEq, Repr

/-- The integer value the C enum gives each enumerator (none has an initialiser, so they count
from zero). -/
def SyncRequestResult.toNat : SyncRequestResult → Nat
  | SyncRequestResult.TryAgain => 0
  | SyncRequestResult.SuccessUnmanaged => 1
  | SyncRequestResult.SuccessManaged => 2

/-- The enumerators of `SyncRequestResult` in declaration order. -/
def SyncRequestResult.enumerators : List SyncRequestResult :=
  [SyncRequestResult.TryAgain, SyncRequestResult.SuccessUnmanaged, SyncRequestResult.SuccessManaged]

/-- The enumerators of `Thread::ThreadStateFlags`. -/
inductive Thread.ThreadStateFlags where
  | TSF_Unknown
  | TSF_Attached
  | TSF_Detached
  | TSF_SuppressGcStress
  | TSF_DoNotTriggerGc
  | TSF_IsGcSpecialThread
  | TSF_IsRandSeedSet
  deriving DecidableEq, Repr

/-- The value thread.h assigns to each enumerator. -/
def Thread.ThreadStateFlags.val : Thread.ThreadStateFlags → Nat
  | Thread.ThreadStateFlags.TSF_Unknown => 0x00000000
  | Thread.ThreadStateFlags.TSF_Attached => 0x00000001
  | Thread.ThreadStateFlags.TSF_Detached => 0x00000002
  | Thread.ThreadStateFlags.TSF_SuppressGcStress => 0x00000008
  | Thread.ThreadStateFlags.TSF_DoNotTriggerGc => 0x00000010
  | Thread.ThreadStateFlags.TSF_IsGcSpecialThread => 0x00000020
  | Thread.ThreadStateFlags.TSF_IsRandSeedSet => 0x00000040

/-- Whether the enumerator exists in a build: `TSF_IsRandSeedSet` is inside
`#ifdef FEATURE_GC_STRESS`, the others are unconditional. -/
def Thread.ThreadStateFlags.declared (FEATURE_GC_STRESS : Bool) : Thread.ThreadStateFlags → Bool
  | Thread.ThreadStateFlags.TSF_IsRandSeedSet => FEATURE_GC_STRESS
  | _ => true

/-- The C operator `~` on a 32-bit word. -/
def not32 (x : Nat) : Nat := 0xFFFFFFFF ^^^ (x % 2 ^ 32)

/-! ## thread.h: the thread control block

thread.h declares the members of `Thread` but holds none of their bodies. The operations below
are therefore modelled from the specification of the runtime. -/

/-- The struct `ExInfo`. `m_frameIter` is represented by the stack position the iterator
records for the dispatch frame. -/
structure ExInfo where
  m_pPrevExInfo : Nat
  m_pExContext : Nat
  m_exception : Nat
  m_kind : Nat
  m_passNumber : Nat
  m_idxCurClause : Nat
  m_frameIter : Nat
  m_notifyDebuggerSP : Nat
  deriving DecidableEq, Repr

/-- The members of struct `ThreadBuffer` that the modelled operations use, in declaration
order. `m_pDynamicTypesTlsCells` holds the cells of the array it points to (no cells for a
null pointer). -/
structure ThreadBuffer where
  m_ThreadStateFlags : Nat
  m_pTransitionFrame : Nat
  m_pHackPInvokeTunnel : Nat
  m_pCachedTransitionFrame : Nat
  m_ppvHijackedReturnAddressLocation : Nat
  m_pvHijackedReturnAddress : Nat
  m_pExInfoStackHead : Nat
  m_pStackLow : Nat
  m_pStackHigh : Nat
  m_numDynamicTypesTlsCells : Nat
  m_pDynamicTypesTlsCells : List Nat
  deriving DecidableEq, Repr

/-- A thread together with the memory its operations reach through pointers: the words of its
stack (where return addresses live) and the `ExInfo` records, both by address. -/
structure Machine where
  thread : ThreadBuffer
  stack : Nat → Nat
  exInfoAt : Nat → ExInfo

/-- A freshly constructed thread: state `TSF_Unknown`, every pointer null, no cells. -/
def ThreadBuffer.fresh : ThreadBuffer where
  m_ThreadStateFlags := 0
  m_pTransitionFrame := 0
  m_pHackPInvokeTunnel := 0
  m_pCachedTransitionFrame := 0
  m_ppvHijackedReturnAddressLocation := 0
  m_pvHijackedReturnAddress := 0
  m_pExInfoStackHead := 0
  m_pStackLow := 0
  m_pStackHigh := 0
  m_numDynamicTypesTlsCells := 0
  m_pDynamicTypesTlsCells := []

/-- An `ExInfo` record with every field zero. -/
def ExInfo.zero : ExInfo where
  m_pPrevExInfo := 0
  m_pExContext := 0
  m_exception := 0
  m_kind := 0
  m_passNumber := 0
  m_idxCurClause := 0
  m_frameIter := 0
  m_notifyDebuggerSP := 0

/-- Modelled from the spec: the body of `Thread::IsStateSet` is not in thread.h; a flag is set
when all of its bits are present in the word. -/
def Thread.IsStateSet (t : ThreadBuffer) (flags : Thread.ThreadStateFlags) : Bool :=
  t.m_ThreadStateFlags &&& flags.val == flags.val

/-- Modelled from the spec: the body of `Thread::IsDoNotTriggerGcSet` is not in thread.h; it
tests the do-not-trigger-gc flag. -/
def Thread.IsDoNotTriggerGcSet (t : ThreadBuffer) : Bool :=
  Thread.IsStateSet t Thread.ThreadStateFlags.TSF_DoNotTriggerGc

/-- Modelled from the spec: the body of `Thread::IsCurrentThreadInCooperativeMode` is not in
thread.h; a null transition frame means the thread is cooperative, a non-null one that it is
preemptive. -/
def Thread.IsCurrentThreadInCooperativeMode (t : ThreadBuffer) : Bool :=
  t.m_pTransitionFrame == 0

/-- Modelled from the spec: the body of `Thread::IsHijacked` is not in thread.h; the hijack
fields are non-null only while the thread is hijacked. -/
def Thread.IsHijacked (t : ThreadBuffer) : Bool :=
  t.m_ppvHijackedReturnAddressLocation != 0

/-! ### Mode/transition protocol -/

/-- Modelled from the spec: the body of `Thread::WaitForGC` is not in thread.h; it blocks until
the collection has finished scanning and leaves the thread's own fields as they are. -/
def Thread.WaitForGC (t : ThreadBuffer) (_pTransitionFrame : Nat) : ThreadBuffer :=
  t

/-- Modelled from the spec: the body of `Thread::EnablePreemptiveMode` is not in thread.h; it
publishes the transition-frame snapshot derived from the calling context and so flips the
thread to preemptive. The snapshot is the address of the transition frame the calling context
has set up on the thread's stack; being the address of an object it is a positive number,
never the null pointer. -/
def Thread.EnablePreemptiveMode (t : ThreadBuffer) (snapshot : ℕ+) : ThreadBuffer :=
  { t with m_pTransitionFrame := (snapshot : Nat) }

/-- Modelled from the spec: the body of `Thread::DisablePreemptiveMode` is not in thread.h; if
a collection is scanning stacks (`collectionScanning`) it blocks in `WaitForGC` until the scan
completes, then clears the transition frame, which makes the thread cooperative. -/
def Thread.DisablePreemptiveMode (t : ThreadBuffer) (collectionScanning : Bool) : ThreadBuffer :=
  let waited := if collectionScanning then Thread.WaitForGC t t.m_pTransitionFrame else t
  { waited with m_pTransitionFrame := 0 }

/-- One call of the mode protocol made by the owning thread: `Enable` carries the snapshot of
the calling context, `Disable` whether a collection is scanning stacks at the time. -/
inductive ModeCall where
  | Enable (snapshot : ℕ+)
  | Disable (collectionScanning : Bool)
  deriving DecidableEq

/-- The thread after one call. -/
def ModeCall.apply (t : ThreadBuffer) : ModeCall → ThreadBuffer
  | ModeCall.Enable snapshot => Thread.EnablePreemptiveMode t snapshot
  | ModeCall.Disable collectionScanning => Thread.DisablePreemptiveMode t collectionScanning

/-- Modelled from the spec: the body of `Thread::Hijack` is not in thread.h. The in-flight
return-address slot `ppvRetAddrLocation` (located by the stack unwinder, null when none was
found) and the trampoline address are inputs. Hijacking is legal only for a thread that is
cooperative, not already hijacked and without do-not-trigger-gc; then the return address in
the slot is saved and replaced by the trampoline. Otherwise the request is rejected and
nothing changes. The result tells whether the thread was hijacked by this call. -/
def Thread.Hijack (m : Machine) (ppvRetAddrLocation pvHijackTarget : Nat) : Bool × Machine :=
  if Thread.IsCurrentThreadInCooperativeMode m.thread && !Thread.IsHijacked m.thread &&
      !Thread.IsDoNotTriggerGcSet m.thread && ppvRetAddrLocation != 0 then
    (true,
      { m with
        thread := { m.thread with
          m_ppvHijackedReturnAddressLocation := ppvRetAddrLocation
          m_pvHijackedReturnAddress := m.stack ppvRetAddrLocation }
        stack := Function.update m.stack ppvRetAddrLocation pvHijackTarget })
  else
    (false, m)

/-- Modelled from the spec: the body of `Thread::Unhijack` is not in thread.h. It reverses a
hijack: if the thread is hijacked, the saved return address is written back to the recorded
location and both hijack fields are cleared; a thread that is not hijacked (the hijack already
fired or was already undone) is left alone. -/
def Thread.Unhijack (m : Machine) : Machine :=
  if Thread.IsHijacked m.thread then
    { m with
      thread := { m.thread with
        m_ppvHijackedReturnAddressLocation := 0
        m_pvHijackedReturnAddress := 0 }
      stack := Function.update m.stack m.thread.m_ppvHijackedReturnAddressLocation
        m.thread.m_pvHijackedReturnAddress }
  else
    m

/-- Modelled from the spec: the body of `Thread::GetUnhijackedReturnAddress` is not in
thread.h. It gives the true return address of a slot: the saved one if the slot is the hijacked
location, else what the slot holds. -/
def Thread.GetUnhijackedReturnAddress (m : Machine) (ppvReturnAddressLocation : Nat) : Nat :=
  if Thread.IsHijacked m.thread &&
      m.thread.m_ppvHijackedReturnAddressLocation == ppvReturnAddressLocation then
    m.thread.m_pvHijackedReturnAddress
  else
    m.stack ppvReturnAddressLocation

/-- Modelled from the spec: the thread executes the return through the slot
`ppvReturnAddressLocation`. If that slot is the hijacked one, control lands in the trampoline,
which restores the saved return address, clears the hijack fields and resumes at the saved
address; otherwise control goes to the address in the slot. The result is the address at which
the original control flow resumes, and the machine after. -/
def Thread.executeReturn (m : Machine) (ppvReturnAddressLocation : Nat) : Nat × Machine :=
  if Thread.IsHijacked m.thread &&
      m.thread.m_ppvHijackedReturnAddressLocation == ppvReturnAddressLocation then
    (m.thread.m_pvHijackedReturnAddress,
      { m with
        thread := { m.thread with
          m_ppvHijackedReturnAddressLocation := 0
          m_pvHijackedReturnAddress := 0 }
        stack := Function.update m.stack ppvReturnAddressLocation
          m.thread.m_pvHijackedReturnAddress })
  else
    (m.stack ppvReturnAddressLocation, m)

/-! ### Exception-info chain -/

/-- Modelled from the spec: the body of `Thread::PushExInfo` is not in thread.h. It inserts the
record at address `pExInfo` at the head of the chain: the record links to the old head and
becomes the new head. -/
def Thread.PushExInfo (m : Machine) (pExInfo : Nat) : Machine :=
  { m with
    thread := { m.thread with m_pExInfoStackHead := pExInfo }
    exInfoAt := Function.update m.exInfoAt pExInfo
      { m.exInfoAt pExInfo with m_pPrevExInfo := m.thread.m_pExInfoStackHead } }

/-- Modelled from the spec: the body of `Thread::ValidateExInfoPop` is not in thread.h. It
asserts that the entry being popped is the current head and that `limitSP` has advanced past
the entry's recorded frame position; the result is whether the assertions hold. -/
def Thread.ValidateExInfoPop (m : Machine) (pExInfo limitSP : Nat) : Bool :=
  pExInfo == m.thread.m_pExInfoStackHead && decide ((m.exInfoAt pExInfo).m_frameIter < limitSP)

/-- Modelled from the spec: popping an entry of the chain, as the dispatch logic does after
`ValidateExInfoPop`: when validation passes the head moves to the next-older entry, when it
fails there is no result (a fatal consistency violation). -/
def Thread.popExInfo (m : Machine) (pExInfo limitSP : Nat) : Option Machine :=
  if Thread.ValidateExInfoPop m pExInfo limitSP then
    some { m with
      thread := { m.thread with m_pExInfoStackHead := (m.exInfoAt pExInfo).m_pPrevExInfo } }
  else
    none

/-- The chain reachable from the pointer `p` consists of exactly the records at `entries`,
newest first, and ends in a null link. -/
def exInfoChain (exInfoAt : Nat → ExInfo) : Nat → List Nat → Prop
  | p, [] => p = 0
  | p, e :: rest => p = e ∧ e ≠ 0 ∧ exInfoChain exInfoAt (exInfoAt e).m_pPrevExInfo rest

/-! ### Root scanning -/

/-- Modelled from the spec: the point a scan of the thread starts from. A cooperative thread
without hijack that scans itself starts from its live registers (`liveContext`); otherwise the
start is the last published safe point: the committed transition frame or, if the thread is
hijacked, the point the hijack lands at. A thread with neither has no safe point. -/
def Thread.scanStart (t : ThreadBuffer) (isCurrentThread : Bool) (liveContext : Nat) :
    Option Nat :=
  if Thread.IsCurrentThreadInCooperativeMode t && !Thread.IsHijacked t && isCurrentThread then
    some liveContext
  else if t.m_pTransitionFrame != 0 then
    some t.m_pTransitionFrame
  else if Thread.IsHijacked t then
    some t.m_ppvHijackedReturnAddressLocation
  else
    none

/-- Modelled from the spec: the loop of `Thread::GcScanRootsWorker` over the exception-info
chain (the body is not in thread.h): starting at `p` it reports the `m_exception` of every
record and follows `m_pPrevExInfo` until the null link. `fuel` bounds the number of records
visited; the result is `none` if the chain is longer. -/
def Thread.reportExInfoChain (exInfoAt : Nat → ExInfo) : Nat → Nat → Option (List Nat)
  | fuel, p =>
    if p = 0 then some []
    else
      match fuel with
      | 0 => none
      | fuel + 1 =>
        (Thread.reportExInfoChain exInfoAt fuel (exInfoAt p).m_pPrevExInfo).map
          (fun older => (exInfoAt p).m_exception :: older)

/-- Modelled from the spec: the body of `Thread::GcScanRootsWorker` is not in thread.h. The
stack walker is an external collaborator: `stackWalk start` lists the live references it
finds walking outward from `start`. The callback is invoked once for each of them, then once
for the exception object of every record of the exception-info chain. The result is the list
of callback invocations in order. -/
def Thread.GcScanRootsWorker (m : Machine) (stackWalk : Nat → List Nat) (fuel start : Nat) :
    Option (List Nat) :=
  (Thread.reportExInfoChain m.exInfoAt fuel m.thread.m_pExInfoStackHead).map
    (fun exceptions => stackWalk start ++ exceptions)

/-- Modelled from the spec: the body of `Thread::GcScanRoots` is not in thread.h. A thread
with no committed safe point yields zero roots and succeeds; otherwise the worker scans from
the start point. -/
def Thread.GcScanRoots (m : Machine) (stackWalk : Nat → List Nat) (isCurrentThread : Bool)
    (liveContext fuel : Nat) : Option (List Nat) :=
  match Thread.scanStart m.thread isCurrentThread liveContext with
  | none => some []
  | some start => Thread.GcScanRootsWorker m stackWalk fuel start

/-! ### Reverse-entry gate -/

/-- Modelled from the spec: the body of `Thread::GetThreadLocalStorageForDynamicType` is not in
thread.h. It looks the offset up in the cell table without allocating: null when the table has
no such cell. -/
def Thread.GetThreadLocalStorageForDynamicType (t : ThreadBuffer) (uTlsTypeOffset : Nat) : Nat :=
  if t.m_numDynamicTypesTlsCells ≤ uTlsTypeOffset then 0
  else t.m_pDynamicTypesTlsCells.getD uTlsTypeOffset 0

/-- Modelled from the spec: the body of `Thread::AllocateThreadLocalStorageForDynamicType` is
not in thread.h. The cell table grows as needed (to `numTlsCells` cells, and far enough to hold
the offset), keeping the cells it has and never shrinking; a cell that is still null receives
`pTlsStorage`, the block the allocator hands out for `tlsStorageSize` bytes (null if it
fails); the result is the pointer in the cell. -/
def Thread.AllocateThreadLocalStorageForDynamicType (t : ThreadBuffer)
    (uTlsTypeOffset _tlsStorageSize numTlsCells pTlsStorage : Nat) : Nat × ThreadBuffer :=
  let grown : ThreadBuffer :=
    if t.m_numDynamicTypesTlsCells ≤ uTlsTypeOffset then
      { t with
        m_numDynamicTypesTlsCells := max numTlsCells (uTlsTypeOffset + 1)
        m_pDynamicTypesTlsCells :=
          t.m_pDynamicTypesTlsCells.take t.m_numDynamicTypesTlsCells ++
            List.replicate
              (max numTlsCells (uTlsTypeOffset + 1) -
                (t.m_pDynamicTypesTlsCells.take t.m_numDynamicTypesTlsCells).length) 0 }
    else t
  let filled : ThreadBuffer :=
    if grown.m_pDynamicTypesTlsCells.getD uTlsTypeOffset 0 = 0 then
      { grown with
        m_pDynamicTypesTlsCells := grown.m_pDynamicTypesTlsCells.set uTlsTypeOffset pTlsStorage }
    else grown
  (filled.m_pDynamicTypesTlsCells.getD uTlsTypeOffset 0, filled)

/-- The cell table is consistent: `m_numDynamicTypesTlsCells` is the number of cells of the
array `m_pDynamicTypesTlsCells` points to. -/
def ThreadBuffer.tlsCellsConsistent (t : ThreadBuffer) : Prop :=
  t.m_pDynamicTypesTlsCells.length = t.m_numDynamicTypesTlsCells

/-! ### Sample states -/

/-- A machine with a fresh thread, the return address `0x401000` in the stack slot `0x7000`,
and three exception records at `0x6300`, `0x6200`, `0x6100` (recording these positions) whose
exception objects are `0xA1`, `0xA2`, `0xA3`. -/
def sampleMachine : Machine where
  thread := ThreadBuffer.fresh
  stack := fun a => if a = 0x7000 then 0x401000 else 0
  exInfoAt := fun a =>
    if a = 0x6300 then { ExInfo.zero with m_exception := 0xA1, m_frameIter := 0x6300 }
    else if a = 0x6200 then { ExInfo.zero with m_exception := 0xA2, m_frameIter := 0x6200 }
    else if a = 0x6100 then { ExInfo.zero with m_exception := 0xA3, m_frameIter := 0x6100 }
    else ExInfo.zero

/-- The sample machine after pushing the records at `0x6300`, `0x6200`, `0x6100`, with the
thread preemptive at transition frame `0x7100`. -/
def scanMachine : Machine :=
  let pushed :=
    Thread.PushExInfo (Thread.PushExInfo (Thread.PushExInfo sampleMachine 0x6300) 0x6200) 0x6100
  { pushed with thread := { pushed.thread with m_pTransitionFrame := 0x7100 } }

/-- A stack walker that finds the references `0xB1` and `0xA2` from the frame `0x7100` (the
second is also the exception object of the record at `0x6200`). -/
def sampleStackWalk (start : Nat) : List Nat :=
  if start = 0x7100 then [0xB1, 0xA2] else []

/-! ## jithost.cpp -/

/-- A `wchar_t`. -/
abbrev WChar := Nat

/-- What one call of the managed `JitConfigProvider::getStringConfigValue` does, seen from the
native side: the `int` it returns and the characters it stores through `retBuffer`, starting
at index 0. -/
structure ProviderReply where
  result : Int
  written : List WChar
  deriving Repr

/-- The abstract class `JitConfigProvider`: its two pure virtual methods. For
`getStringConfigValue` the embedding passes whether `retBuffer` is non-null instead of the
address. -/
structure JitConfigProvider where
  getIntConfigValue : List WChar → Int → Int
  getStringConfigValue : List WChar → Bool → Int → ProviderReply

/-- Wrap an integer to the range of a 32-bit C `int`. -/
def wrapInt32 (x : Int) : Int :=
  (x + 2 ^ 31) % 2 ^ 32 - 2 ^ 31

/-- The implicit conversion of an `int` argument to `size_t`, for a `size_t` of `sizeBits`
bits. -/
def toSizeT (sizeBits : Nat) (x : Int) : Nat :=
  (x % (2 ^ sizeBits : Int)).toNat

/-- How a call of native code ends: it returns a value, or it has no defined behaviour (a
store through the null pointer or past the end of a block). -/
inductive CallOutcome (α : Type) where
  | returned (value : α)
  | undefinedBehaviour
  deriving DecidableEq, Repr

/-- The C library `calloc(nmemb, size)` handing out cells of `size` bytes. It returns the null
pointer whenever the request cannot be satisfied: always when the byte count `nmemb * size`
does not fit `size_t`, and otherwise whenever the heap does not grant that many bytes
(`heapGrants`, the state of the heap as the caller finds it). A granted request yields a block
of `nmemb` zeroed cells. -/
def calloc (sizeBits : Nat) (heapGrants : Nat → Bool) (nmemb size : Nat) :
    Option (List WChar) :=
  if nmemb * size < 2 ^ sizeBits ∧ heapGrants (nmemb * size) = true then
    some (List.replicate nmemb 0)
  else
    none

/-- The provider stores `written` through `retBuffer`, starting at index 0, and the host then
returns `retBuffer`. Storing nothing leaves the pointer as it is. Storing through a null
pointer, or more characters than the block has cells, has no defined behaviour. Otherwise the
stored characters replace the leading cells of the block. -/
def storeThrough (retBuffer : Option (List WChar)) (written : List WChar) :
    CallOutcome (Option (List WChar)) :=
  match retBuffer with
  | none =>
    if written = [] then CallOutcome.returned none else CallOutcome.undefinedBehaviour
  | some cells =>
    if written.length ≤ cells.length then
      CallOutcome.returned (some (written ++ cells.drop written.length))
    else
      CallOutcome.undefinedBehaviour

/-- `JitHost::getIntConfigValue` forwards to the provider. -/
def JitHost.getIntConfigValue (pConfigProvider : JitConfigProvider) (name : List WChar)
    (defaultValue : Int) : Int :=
  pConfigProvider.getIntConfigValue name defaultValue

/-- `JitHost::getStringConfigValue`, for a platform whose `size_t` has `sizeBits` bits and
whose `wchar_t` has `sizeofWChar` bytes, with the heap in the state `heapGrants`. The value
returned is the pointer: `none` for `nullptr`, `some cells` for a block and its contents at
return. The result of `calloc` is passed to the provider unchecked, as in the source. -/
def JitHost.getStringConfigValue (sizeBits sizeofWChar : Nat) (heapGrants : Nat → Bool)
    (pConfigProvider : JitConfigProvider) (name : List WChar) :
    CallOutcome (Option (List WChar)) :=
  -- Find out the required length of the buffer
  let numCharacters := (pConfigProvider.getStringConfigValue name false 0).result
  if numCharacters = 0 then
    CallOutcome.returned none
  else
    -- Allocate extra char for the null terminator
    let retBuffer :=
      calloc sizeBits heapGrants (toSizeT sizeBits (wrapInt32 (numCharacters + 1))) sizeofWChar
    storeThrough retBuffer
      (pConfigProvider.getStringConfigValue name retBuffer.isSome numCharacters).written

/-- A heap that grants every request that fits `size_t`. -/
def ampleHeap : Nat → Bool := fun _ => true

/-- A heap that is exhausted: it grants nothing. -/
def exhaustedHeap : Nat → Bool := fun _ => false

/-- A provider for the value `abc` that stores the three characters through whatever pointer
it is given. -/
def uncheckedAbcProvider : JitConfigProvider where
  getIntConfigValue := fun _ defaultValue => defaultValue
  getStringConfigValue := fun _ _ _ => { result := 3, written := [97, 98, 99] }

/-- A provider whose length query answers `-2` (and which stores nothing). -/
def negativeLengthProvider : JitConfigProvider where
  getIntConfigValue := fun _ defaultValue => defaultValue
  getStringConfigValue := fun _ _ _ => { result := -2, written := [] }

/-- A provider whose length query answers `2 ^ 30` (and which stores nothing). -/
def hugeLengthProvider : JitConfigProvider where
  getIntConfigValue := fun _ defaultValue => defaultValue
  getStringConfigValue := fun _ _ _ => { result := 2 ^ 30, written := [] }

/-- A provider for the value `abc`: it reports length 3 and stores the three characters when
given a buffer. -/
def abcProvider : JitConfigProvider where
  getIntConfigValue := fun _ defaultValue => defaultValue
  getStringConfigValue := fun _ hasBuffer _ =>
    { result := 3, written := if hasBuffer then [97, 98, 99] else [] }

/-! ## Theorems -/

/-- C9: `SyncRequestResult` has exactly three enumerators, pairwise distinct (values 0, 1, 2),
and every value of the type is `TryAgain` or one of the two success values; there is no
further, fatal outcome. -/
theorem syncRequestResult_three_outcomes :
    SyncRequestResult.enumerators.length = 3 ∧
    SyncRequestResult.enumerators.Nodup ∧
    SyncRequestResult.enumerators.map SyncRequestResult.toNat = [0, 1, 2] ∧
    (∀ r : SyncRequestResult, r ∈ SyncRequestResult.enumerators) ∧
    (∀ r : SyncRequestResult,
      r = SyncRequestResult.TryAgain ∨ r = SyncRequestResult.SuccessUnmanaged ∨
        r = SyncRequestResult.SuccessManaged) ∧
    SyncRequestResult.TryAgain ≠ SyncRequestResult.SuccessUnmanaged ∧
    SyncRequestResult.TryAgain ≠ SyncRequestResult.SuccessManaged ∧
    SyncRequestResult.SuccessUnmanaged ≠ SyncRequestResult.SuccessManaged := by
  refine ⟨rfl, by decide, rfl, ?_, ?_, by decide, by decide, by decide⟩
  · intro r; cases r <;> decide
  · intro r; cases r <;> simp

/-- C8: with `KEEP_THREAD_LAYOUT_CONSTANT` defined, `SIZEOF_ALLOC_CONTEXT` is 40 on x86/ARM and
56 on AMD64/ARM64 for either setting of `FEATURE_SVR_GC`, so the buffer size and the offsets of
`m_ThreadStateFlags` and `m_pTransitionFrame` do not depend on `FEATURE_SVR_GC`; without the
define the ladder would give 28/40 on x86 and 40/56 on AMD64. -/
theorem sizeof_alloc_context_layout_constant :
    KEEP_THREAD_LAYOUT_CONSTANT = true ∧
    (∀ svr : Bool,
      SIZEOF_ALLOC_CONTEXT Arch.X86 svr = 40 ∧ SIZEOF_ALLOC_CONTEXT Arch.ARM svr = 40 ∧
      SIZEOF_ALLOC_CONTEXT Arch.AMD64 svr = 56 ∧ SIZEOF_ALLOC_CONTEXT Arch.ARM64 svr = 56) ∧
    (∀ (arch : Arch) (svr1 svr2 : Bool),
      SIZEOF_ALLOC_CONTEXT arch svr1 = SIZEOF_ALLOC_CONTEXT arch svr2 ∧
      ThreadBuffer.offsetof_m_ThreadStateFlags arch svr1 =
        ThreadBuffer.offsetof_m_ThreadStateFlags arch svr2 ∧
      ThreadBuffer.offsetof_m_pTransitionFrame arch svr1 =
        ThreadBuffer.offsetof_m_pTransitionFrame arch svr2) ∧
    (∀ svr : Bool,
      ThreadBuffer.offsetof_m_ThreadStateFlags Arch.X86 svr = 40 ∧
      ThreadBuffer.offsetof_m_pTransitionFrame Arch.X86 svr = 44 ∧
      ThreadBuffer.offsetof_m_ThreadStateFlags Arch.AMD64 svr = 56 ∧
      ThreadBuffer.offsetof_m_pTransitionFrame Arch.AMD64 svr = 64) ∧
    SIZEOF_ALLOC_CONTEXT_ladder Arch.X86 false false = 28 ∧
    SIZEOF_ALLOC_CONTEXT_ladder Arch.X86 true false = 40 ∧
    SIZEOF_ALLOC_CONTEXT_ladder Arch.AMD64 false false = 40 ∧
    SIZEOF_ALLOC_CONTEXT_ladder Arch.AMD64 true false = 56 := by
  refine ⟨rfl, ?_, ?_, ?_, rfl, rfl, rfl, rfl⟩
  · intro svr; cases svr <;> decide
  · intro arch svr1 svr2
    cases arch <;> cases svr1 <;> cases svr2 <;> decide
  · intro svr; cases svr <;> decide

/-- C7: `TSF_Unknown` is 0, every other `ThreadStateFlags` value (including `TSF_IsRandSeedSet`
of the `FEATURE_GC_STRESS` build) is a single power of two, distinct flags have bitwise AND 0,
and for every flag word `w` and distinct flags `f`, `g`, neither `w | f` nor `w & ~f` changes
whether `g` is set in `w`. -/
theorem threadStateFlags_independent_bits :
    Thread.ThreadStateFlags.TSF_Unknown.val = 0 ∧
    (∀ f : Thread.ThreadStateFlags, f.declared true = true) ∧
    (∀ f : Thread.ThreadStateFlags,
      f.declared false = true ↔ f ≠ Thread.ThreadStateFlags.TSF_IsRandSeedSet) ∧
    (∀ f : Thread.ThreadStateFlags, f ≠ Thread.ThreadStateFlags.TSF_Unknown →
      ∃ k : Nat, k < 32 ∧ f.val = 2 ^ k) ∧
    (∀ f g : Thread.ThreadStateFlags, f ≠ g → f.val &&& g.val = 0) ∧
    (∀ (w : Nat) (f g : Thread.ThreadStateFlags), f ≠ g →
      (((w ||| f.val) &&& g.val = g.val ↔ w &&& g.val = g.val) ∧
       ((w &&& not32 f.val) &&& g.val = g.val ↔ w &&& g.val = g.val)) ∧
      (((w ||| f.val) &&& g.val ≠ 0 ↔ w &&& g.val ≠ 0) ∧
       ((w &&& not32 f.val) &&& g.val ≠ 0 ↔ w &&& g.val ≠ 0))) := by
  have hand : ∀ f g : Thread.ThreadStateFlags, f ≠ g → f.val &&& g.val = 0 := by
    intro f g; cases f <;> cases g <;> decide
  have hnot : ∀ f g : Thread.ThreadStateFlags, f ≠ g → not32 f.val &&& g.val = g.val := by
    intro f g; cases f <;> cases g <;> decide
  refine ⟨rfl, ?_, ?_, ?_, hand, ?_⟩
  · intro f; cases f <;> rfl
  · intro f; cases f <;> decide
  · intro f hf
    cases f
    · exact absurd rfl hf
    · exact ⟨0, by decide, rfl⟩
    · exact ⟨1, by decide, rfl⟩
    · exact ⟨3, by decide, rfl⟩
    · exact ⟨4, by decide, rfl⟩
    · exact ⟨5, by decide, rfl⟩
    · exact ⟨6, by decide, rfl⟩
  · intro w f g hfg
    have h1 : (w ||| f.val) &&& g.val = w &&& g.val := by
      rw [Nat.and_comm (w ||| f.val), Nat.and_or_distrib_left, Nat.and_comm g.val f.val,
        hand f g hfg, Nat.or_zero, Nat.and_comm]
    have h2 : (w &&& not32 f.val) &&& g.val = w &&& g.val := by
      rw [Nat.and_assoc, hnot f g hfg]
    rw [h1, h2]
    exact ⟨⟨Iff.rfl, Iff.rfl⟩, ⟨Iff.rfl, Iff.rfl⟩⟩

/-- Witness for C7: the flag word `0x21` with `f = TSF_DoNotTriggerGc`, `g = TSF_Attached`. -/
theorem threadStateFlags_independent_bits_witness :
    ((0x21 ||| Thread.ThreadStateFlags.TSF_DoNotTriggerGc.val) &&&
        Thread.ThreadStateFlags.TSF_Attached.val = Thread.ThreadStateFlags.TSF_Attached.val ↔
      0x21 &&& Thread.ThreadStateFlags.TSF_Attached.val = Thread.ThreadStateFlags.TSF_Attached.val) :=
  (threadStateFlags_independent_bits.2.2.2.2.2 0x21 Thread.ThreadStateFlags.TSF_DoNotTriggerGc
    Thread.ThreadStateFlags.TSF_Attached (by decide)).1.1

/-- A value in the range of `int` is unchanged by the 32-bit wrap. -/
theorem wrapInt32_of_inRange (x : Int) (h1 : -(2 ^ 31) ≤ x) (h2 : x < 2 ^ 31) :
    wrapInt32 x = x := by
  unfold wrapInt32
  rw [Int.emod_eq_of_lt (by omega) (by omega)]
  omega

/-- A non-negative `int` below `2 ^ sizeBits` converts to `size_t` unchanged. -/
theorem toSizeT_of_nonneg (sizeBits : Nat) (x : Int) (h0 : 0 ≤ x)
    (h1 : x.toNat < 2 ^ sizeBits) : toSizeT sizeBits x = x.toNat := by
  unfold toSizeT
  have hx : x < (2 ^ sizeBits : Int) := by
    have : ((x.toNat : Nat) : Int) < ((2 ^ sizeBits : Nat) : Int) := by exact_mod_cast h1
    rw [Int.toNat_of_nonneg h0] at this
    simpa using this
  rw [Int.emod_eq_of_lt h0 hx]

/-- Storing at most `m` characters through a zeroed block of `m` cells. -/
theorem storeThrough_replicate (m : Nat) (w : List WChar) (h : w.length ≤ m) :
    storeThrough (some (List.replicate m 0)) w =
      CallOutcome.returned (some (w ++ List.replicate (m - w.length) 0)) := by
  simp only [storeThrough, List.drop_replicate, List.length_replicate, h, if_true]

/-- Storing through a block never makes the returned pointer null. -/
theorem storeThrough_some_ne_null (cells w : List WChar) :
    storeThrough (some cells) w ≠ CallOutcome.returned none := by
  simp only [storeThrough]
  split <;> simp

/-- A successful `calloc` was asked for a byte count that fits `size_t` and hands out `nmemb`
zeroed cells. -/
theorem calloc_eq_some (sizeBits : Nat) (heapGrants : Nat → Bool) (nmemb size : Nat)
    (h : calloc sizeBits heapGrants nmemb size ≠ none) :
    nmemb * size < 2 ^ sizeBits ∧
      calloc sizeBits heapGrants nmemb size = some (List.replicate nmemb 0) := by
  unfold calloc at h ⊢
  split at h
  · next hc => exact ⟨hc.1, by rw [if_pos hc]⟩
  · exact absurd rfl h

/-- For a positive `int` `n`, if the `calloc` of the buffer succeeds then `n + 1` did not
overflow and the count passed to `calloc` is `n + 1`: at `n = INT_MAX` the wrapped count
converts to a `size_t` too large for any block of cells of 2 or more bytes. -/
theorem toSizeT_succ_of_calloc (sizeBits sizeofWChar : Nat) (heapGrants : Nat → Bool) (n : Int)
    (hbits : 32 ≤ sizeBits) (hsz : 2 ≤ sizeofWChar) (hpos : 0 < n) (hint : n < 2 ^ 31)
    (hcalloc : calloc sizeBits heapGrants (toSizeT sizeBits (wrapInt32 (n + 1))) sizeofWChar
      ≠ none) :
    toSizeT sizeBits (wrapInt32 (n + 1)) = n.toNat + 1 := by
  have hM : 2 ^ 32 ≤ 2 ^ sizeBits := Nat.pow_le_pow_right (by decide) hbits
  by_cases hlt : n + 1 < 2 ^ 31
  · rw [wrapInt32_of_inRange _ (by omega) hlt]
    have hnat : (n + 1).toNat = n.toNat + 1 := by omega
    rw [toSizeT_of_nonneg sizeBits (n + 1) (by omega) (by omega), hnat]
  · exfalso
    have hn : n = 2 ^ 31 - 1 := by omega
    subst hn
    have hfit := (calloc_eq_some _ _ _ _ hcalloc).1
    have hwrap : wrapInt32 ((2 ^ 31 - 1 : Int) + 1) = -(2 ^ 31) := by
      unfold wrapInt32; norm_num
    have hconv : toSizeT sizeBits (-(2 ^ 31)) = 2 ^ sizeBits - 2 ^ 31 := by
      unfold toSizeT
      have hcast : ((2 : Int) ^ sizeBits) = ((2 ^ sizeBits : Nat) : Int) := by push_cast; rfl
      rw [hcast, ← Int.add_emod_self,
        Int.emod_eq_of_lt (by omega) (by omega)]
      omega
    rw [hwrap, hconv] at hfit
    have h2 : (2 ^ sizeBits - 2 ^ 31) * 2 ≤ (2 ^ sizeBits - 2 ^ 31) * sizeofWChar :=
      Nat.mul_le_mul_left _ hsz
    omega

/-- C10 (as stated, refuted): on a heap that grants every request, the provider whose length
query answers `-2` makes `getStringConfigValue` return null (no block of `(size_t)(-1)`
characters exists) although the length query did not return 0; and with a 32-bit `size_t` and
4-byte `wchar_t` the provider answering `2 ^ 30 > 0` gets null instead of a buffer of
`2 ^ 30 + 1` characters, the request exceeding `size_t`. -/
theorem getStringConfigValue_null_on_negative_length :
    ((negativeLengthProvider.getStringConfigValue [] false 0).result ≠ 0 ∧
      JitHost.getStringConfigValue 64 2 ampleHeap negativeLengthProvider [] =
        CallOutcome.returned none) ∧
    (0 < (hugeLengthProvider.getStringConfigValue [] false 0).result ∧
      ((hugeLengthProvider.getStringConfigValue [] true (2 ^ 30)).written.length : Int) ≤
        (hugeLengthProvider.getStringConfigValue [] false 0).result ∧
      JitHost.getStringConfigValue 32 4 ampleHeap hugeLengthProvider [] =
        CallOutcome.returned none) := by
  refine ⟨⟨by decide, ?_⟩, by decide, by decide, ?_⟩
  · simp [JitHost.getStringConfigValue, negativeLengthProvider, calloc, toSizeT, wrapInt32,
      storeThrough]
  · simp [JitHost.getStringConfigValue, hugeLengthProvider, calloc, toSizeT, wrapInt32,
      storeThrough]

/-- The unchecked `calloc` result: when the heap is exhausted, a provider that stores its
characters through the pointer it is given stores through the null pointer. -/
theorem getStringConfigValue_null_dereference :
    JitHost.getStringConfigValue 64 2 exhaustedHeap uncheckedAbcProvider [] =
      CallOutcome.undefinedBehaviour := by
  simp [JitHost.getStringConfigValue, uncheckedAbcProvider, calloc, exhaustedHeap, storeThrough]

/-- C10 (amended): `getStringConfigValue` returns null when the length query returns 0; when
it returns null, the query returned 0 or the `calloc` of the buffer failed; and when the query
returns `n > 0`, the `calloc` of the buffer succeeds and the second call (passed the buffer and
length `n`) stores at most `n` characters, it returns a block of `n + 1` characters: the stored
ones followed by zeros, with the terminator at index `n`. -/
theorem getStringConfigValue_contract (sizeBits sizeofWChar : Nat) (heapGrants : Nat → Bool)
    (p : JitConfigProvider) (name : List WChar) (n : Int)
    (hn : (p.getStringConfigValue name false 0).result = n) :
    (n = 0 →
      JitHost.getStringConfigValue sizeBits sizeofWChar heapGrants p name =
        CallOutcome.returned none) ∧
    (JitHost.getStringConfigValue sizeBits sizeofWChar heapGrants p name =
        CallOutcome.returned none →
      n = 0 ∨
        calloc sizeBits heapGrants (toSizeT sizeBits (wrapInt32 (n + 1))) sizeofWChar = none) ∧
    (32 ≤ sizeBits → 2 ≤ sizeofWChar → 0 < n → n < 2 ^ 31 →
      calloc sizeBits heapGrants (toSizeT sizeBits (wrapInt32 (n + 1))) sizeofWChar ≠ none →
      (p.getStringConfigValue name true n).written.length ≤ n.toNat →
      ∃ cells : List WChar,
        JitHost.getStringConfigValue sizeBits sizeofWChar heapGrants p name =
          CallOutcome.returned (some cells) ∧
        cells = (p.getStringConfigValue name true n).written ++
          List.replicate (n.toNat + 1 - (p.getStringConfigValue name true n).written.length) 0 ∧
        cells.length = n.toNat + 1 ∧
        cells.take (p.getStringConfigValue name true n).written.length =
          (p.getStringConfigValue name true n).written ∧
        cells[n.toNat]? = some 0) := by
  refine ⟨?_, ?_, ?_⟩
  · intro h0
    simp [JitHost.getStringConfigValue, hn, h0]
  · intro hnull
    by_cases h0 : n = 0
    · exact Or.inl h0
    · right
      simp only [JitHost.getStringConfigValue, hn, h0, if_false] at hnull
      cases hc : calloc sizeBits heapGrants (toSizeT sizeBits (wrapInt32 (n + 1))) sizeofWChar
      · rfl
      · rw [hc] at hnull
        exact absurd hnull (storeThrough_some_ne_null _ _)
  · intro hbits hsz hpos hint hcalloc hlen
    have hne : n ≠ 0 := by omega
    have hconv := toSizeT_succ_of_calloc sizeBits sizeofWChar heapGrants n hbits hsz hpos hint
      hcalloc
    have hsome := (calloc_eq_some _ _ _ _ hcalloc).2
    rw [hconv] at hsome
    refine ⟨_, ?_, rfl, ?_, ?_, ?_⟩
    · simp only [JitHost.getStringConfigValue, hn, hne, if_false, hconv, hsome,
        Option.isSome_some]
      exact storeThrough_replicate _ _ (by omega)
    · simp only [List.length_append, List.length_replicate]
      omega
    · simp
    · rw [List.getElem?_append_right (by omega)]
      rw [List.getElem?_replicate]
      rw [if_pos (by omega)]

/-! ### Mode/transition protocol -/

/-- Writing a value over a slot and then writing the old value back restores the memory. -/
theorem update_restore (stack : Nat → Nat) (slot v : Nat) :
    Function.update (Function.update stack slot v) slot (stack slot) = stack := by
  rw [Function.update_idem, Function.update_eq_self]

/-- C2: a legal `Hijack` (thread cooperative, not hijacked, no do-not-trigger-gc, a slot found)
saves the slot's return address and patches the slot; the thread executing its return, or
`Unhijack`, then leaves `m_ppvHijackedReturnAddressLocation` null and the stack as it was
before the hijack, and a further return or `Unhijack` writes nothing (restored exactly once).
`Hijack` on a thread that is already hijacked is rejected and changes nothing, so the saved
return address is never overwritten. For every thread, `Unhijack` after a `Hijack` request
leaves the location null, and when the thread was not hijacked before the request the stack is
as before it, whether the request was accepted or rejected. -/
theorem hijack_restores_exactly_once (m : Machine) (slot target : Nat) :
    (Thread.IsCurrentThreadInCooperativeMode m.thread = true →
      Thread.IsHijacked m.thread = false →
      Thread.IsDoNotTriggerGcSet m.thread = false →
      slot ≠ 0 →
      (Thread.Hijack m slot target).1 = true ∧
      (Thread.Hijack m slot target).2.stack slot = target ∧
      (Thread.Hijack m slot target).2.thread.m_ppvHijackedReturnAddressLocation = slot ∧
      (Thread.Hijack m slot target).2.thread.m_pvHijackedReturnAddress = m.stack slot ∧
      Thread.GetUnhijackedReturnAddress (Thread.Hijack m slot target).2 slot = m.stack slot ∧
      (Thread.executeReturn (Thread.Hijack m slot target).2 slot).1 = m.stack slot ∧
      (Thread.executeReturn (Thread.Hijack m slot target).2
        slot).2.thread.m_ppvHijackedReturnAddressLocation = 0 ∧
      (Thread.executeReturn (Thread.Hijack m slot target).2 slot).2.stack = m.stack ∧
      (Thread.Unhijack (Thread.Hijack m slot target).2).thread.m_ppvHijackedReturnAddressLocation
        = 0 ∧
      (Thread.Unhijack (Thread.Hijack m slot target).2).stack = m.stack ∧
      Thread.Unhijack (Thread.executeReturn (Thread.Hijack m slot target).2 slot).2 =
        (Thread.executeReturn (Thread.Hijack m slot target).2 slot).2 ∧
      Thread.Unhijack (Thread.Unhijack (Thread.Hijack m slot target).2) =
        Thread.Unhijack (Thread.Hijack m slot target).2 ∧
      Thread.executeReturn (Thread.Unhijack (Thread.Hijack m slot target).2) slot =
        (m.stack slot, Thread.Unhijack (Thread.Hijack m slot target).2)) ∧
    (Thread.IsHijacked m.thread = true → Thread.Hijack m slot target = (false, m)) ∧
    (Thread.IsHijacked m.thread = false →
      Thread.Unhijack m = m ∧ Thread.executeReturn m slot = (m.stack slot, m)) ∧
    (Thread.Unhijack (Thread.Hijack m slot target).2).thread.m_ppvHijackedReturnAddressLocation
      = 0 ∧
    (Thread.IsHijacked m.thread = false →
      (Thread.Unhijack (Thread.Hijack m slot target).2).stack = m.stack ∧
      (Thread.executeReturn (Thread.Hijack m slot target).2 slot).1 = m.stack slot ∧
      (Thread.executeReturn (Thread.Hijack m slot target).2
        slot).2.thread.m_ppvHijackedReturnAddressLocation = 0 ∧
      (Thread.executeReturn (Thread.Hijack m slot target).2 slot).2.stack = m.stack) := by
  refine ⟨?_, ?_, ?_, ?_, ?_⟩
  · intro hcoop hnot hgc hslot
    have hH : Thread.Hijack m slot target =
        (true,
          { m with
            thread := { m.thread with
              m_ppvHijackedReturnAddressLocation := slot
              m_pvHijackedReturnAddress := m.stack slot }
            stack := Function.update m.stack slot target }) := by
      simp [Thread.Hijack, hcoop, hnot, hgc, hslot]
    rw [hH]
    simp [Thread.GetUnhijackedReturnAddress, Thread.executeReturn, Thread.Unhijack,
      Thread.IsHijacked, hslot, update_restore]
  · intro h
    simp [Thread.Hijack, h]
  · intro h
    simp [Thread.Unhijack, Thread.executeReturn, h]
  · unfold Thread.Hijack
    split
    · next hlegal =>
      simp only [Bool.and_eq_true, bne_iff_ne, ne_eq] at hlegal
      simp [Thread.Unhijack, Thread.IsHijacked, hlegal.2]
    · cases hH : Thread.IsHijacked m.thread
      · simp only [Thread.Unhijack, hH, Bool.false_eq_true, if_false]
        simpa [Thread.IsHijacked] using hH
      · simp [Thread.Unhijack, hH]
  · intro hnot
    unfold Thread.Hijack
    split
    · next hlegal =>
      simp only [Bool.and_eq_true, bne_iff_ne, ne_eq] at hlegal
      simp [Thread.executeReturn, Thread.Unhijack, Thread.IsHijacked, hlegal.2, update_restore]
    · have hloc : m.thread.m_ppvHijackedReturnAddressLocation = 0 := by
        simpa [Thread.IsHijacked] using hnot
      simp [Thread.executeReturn, Thread.Unhijack, hnot, hloc]

/-- Witness for C2: the sample machine hijacked at slot `0x7000` with trampoline `0x500000`
resumes at the original return address `0x401000` when the thread returns. -/
theorem hijack_restores_exactly_once_witness :
    (Thread.executeReturn (Thread.Hijack sampleMachine 0x7000 0x500000).2 0x7000).1 = 0x401000 ∧
    (Thread.executeReturn (Thread.Hijack sampleMachine 0x7000 0x500000).2
        0x7000).2.thread.m_ppvHijackedReturnAddressLocation = 0 :=
  have h := (hijack_restores_exactly_once sampleMachine 0x7000 0x500000).1
    (by decide) (by decide) (by decide) (by decide)
  ⟨h.2.2.2.2.2.1, h.2.2.2.2.2.2.1⟩

/-! ### Exception-info chain -/

/-- After `PushExInfo` the pushed record is the head. -/
theorem Thread.PushExInfo_head (m : Machine) (p : Nat) :
    (Thread.PushExInfo m p).thread.m_pExInfoStackHead = p := rfl

/-- After `PushExInfo` the pushed record links to the old head. -/
theorem Thread.PushExInfo_prev_self (m : Machine) (p : Nat) :
    ((Thread.PushExInfo m p).exInfoAt p).m_pPrevExInfo = m.thread.m_pExInfoStackHead := by
  simp [Thread.PushExInfo]

/-- `PushExInfo` leaves every other record alone. -/
theorem Thread.PushExInfo_exInfoAt_other (m : Machine) (p q : Nat) (h : q ≠ p) :
    (Thread.PushExInfo m p).exInfoAt q = m.exInfoAt q := by
  simp [Thread.PushExInfo, Function.update, h]

/-- `PushExInfo` changes no record's position. -/
theorem Thread.PushExInfo_frameIter (m : Machine) (p q : Nat) :
    ((Thread.PushExInfo m p).exInfoAt q).m_frameIter = (m.exInfoAt q).m_frameIter := by
  by_cases h : q = p
  · subst h; simp [Thread.PushExInfo]
  · rw [Thread.PushExInfo_exInfoAt_other m p q h]

/-- `PushExInfo` changes no record's exception object. -/
theorem Thread.PushExInfo_exception (m : Machine) (p q : Nat) :
    ((Thread.PushExInfo m p).exInfoAt q).m_exception = (m.exInfoAt q).m_exception := by
  by_cases h : q = p
  · subst h; simp [Thread.PushExInfo]
  · rw [Thread.PushExInfo_exInfoAt_other m p q h]

/-- When validation passes, the pop moves the head to the next-older record. -/
theorem Thread.popExInfo_of_valid (m : Machine) (p l : Nat)
    (h : Thread.ValidateExInfoPop m p l = true) :
    Thread.popExInfo m p l =
      some { m with
        thread := { m.thread with m_pExInfoStackHead := (m.exInfoAt p).m_pPrevExInfo } } := by
  simp [Thread.popExInfo, h]

/-- Validation spelled out. -/
theorem Thread.ValidateExInfoPop_iff (m : Machine) (pExInfo limitSP : Nat) :
    Thread.ValidateExInfoPop m pExInfo limitSP = true ↔
      pExInfo = m.thread.m_pExInfoStackHead ∧ (m.exInfoAt pExInfo).m_frameIter < limitSP := by
  simp [Thread.ValidateExInfoPop]

/-- C3: `ValidateExInfoPop(entry, limitSP)` passes exactly when the entry is the current head
and `limitSP` has advanced past the entry's recorded position. After pushing E1, E2, E3, popping
E2 while E3 is the head fails for every limit, and popping E3, E2, E1 with advancing limits,
each past the popped entry, passes at every step and leaves the chain as it was. -/
theorem validateExInfoPop_head_and_limit (m : Machine) :
    (∀ pExInfo limitSP : Nat,
      Thread.ValidateExInfoPop m pExInfo limitSP = true ↔
        pExInfo = m.thread.m_pExInfoStackHead ∧ (m.exInfoAt pExInfo).m_frameIter < limitSP) ∧
    (∀ e1 e2 e3 l1 l2 l3 : Nat, e1 ≠ e2 → e2 ≠ e3 → e1 ≠ e3 →
      l3 ≤ l2 → l2 ≤ l1 →
      (m.exInfoAt e3).m_frameIter < l3 → (m.exInfoAt e2).m_frameIter < l2 →
      (m.exInfoAt e1).m_frameIter < l1 →
      (∀ limitSP : Nat,
        Thread.ValidateExInfoPop
          (Thread.PushExInfo (Thread.PushExInfo (Thread.PushExInfo m e1) e2) e3) e2 limitSP
          = false) ∧
      Thread.ValidateExInfoPop
        (Thread.PushExInfo (Thread.PushExInfo (Thread.PushExInfo m e1) e2) e3) e3 l3 = true ∧
      ∃ m2 m1 m0 : Machine,
        Thread.popExInfo
          (Thread.PushExInfo (Thread.PushExInfo (Thread.PushExInfo m e1) e2) e3) e3 l3
          = some m2 ∧
        m2.thread.m_pExInfoStackHead = e2 ∧
        Thread.ValidateExInfoPop m2 e2 l2 = true ∧
        Thread.popExInfo m2 e2 l2 = some m1 ∧
        m1.thread.m_pExInfoStackHead = e1 ∧
        Thread.ValidateExInfoPop m1 e1 l1 = true ∧
        Thread.popExInfo m1 e1 l1 = some m0 ∧
        m0.thread.m_pExInfoStackHead = m.thread.m_pExInfoStackHead) := by
  refine ⟨Thread.ValidateExInfoPop_iff m, ?_⟩
  intro e1 e2 e3 l1 l2 l3 h12 h23 h13 _ _ hl3 hl2 hl1
  have hv3 : Thread.ValidateExInfoPop
      (Thread.PushExInfo (Thread.PushExInfo (Thread.PushExInfo m e1) e2) e3) e3 l3 = true := by
    rw [Thread.ValidateExInfoPop_iff]
    refine ⟨rfl, ?_⟩
    rw [Thread.PushExInfo_frameIter, Thread.PushExInfo_frameIter, Thread.PushExInfo_frameIter]
    exact hl3
  have hprev3 : ((Thread.PushExInfo (Thread.PushExInfo (Thread.PushExInfo m e1) e2) e3).exInfoAt
      e3).m_pPrevExInfo = e2 := by
    rw [Thread.PushExInfo_prev_self]; rfl
  have hprev2 : ((Thread.PushExInfo (Thread.PushExInfo (Thread.PushExInfo m e1) e2) e3).exInfoAt
      e2).m_pPrevExInfo = e1 := by
    rw [Thread.PushExInfo_exInfoAt_other _ e3 e2 h23, Thread.PushExInfo_prev_self]; rfl
  have hprev1 : ((Thread.PushExInfo (Thread.PushExInfo (Thread.PushExInfo m e1) e2) e3).exInfoAt
      e1).m_pPrevExInfo = m.thread.m_pExInfoStackHead := by
    rw [Thread.PushExInfo_exInfoAt_other _ e3 e1 h13, Thread.PushExInfo_exInfoAt_other _ e2 e1 h12,
      Thread.PushExInfo_prev_self]
  have hpos2 : ((Thread.PushExInfo (Thread.PushExInfo (Thread.PushExInfo m e1) e2) e3).exInfoAt
      e2).m_frameIter < l2 := by
    rw [Thread.PushExInfo_frameIter, Thread.PushExInfo_frameIter, Thread.PushExInfo_frameIter]
    exact hl2
  have hpos1 : ((Thread.PushExInfo (Thread.PushExInfo (Thread.PushExInfo m e1) e2) e3).exInfoAt
      e1).m_frameIter < l1 := by
    rw [Thread.PushExInfo_frameIter, Thread.PushExInfo_frameIter, Thread.PushExInfo_frameIter]
    exact hl1
  refine ⟨?_, hv3, ?_⟩
  · intro limitSP
    cases hval : Thread.ValidateExInfoPop
        (Thread.PushExInfo (Thread.PushExInfo (Thread.PushExInfo m e1) e2) e3) e2 limitSP
    · rfl
    · rw [Thread.ValidateExInfoPop_iff] at hval
      exact absurd hval.1 h23
  · have hv2 : Thread.ValidateExInfoPop
        { Thread.PushExInfo (Thread.PushExInfo (Thread.PushExInfo m e1) e2) e3 with
          thread := { (Thread.PushExInfo (Thread.PushExInfo (Thread.PushExInfo m e1) e2)
            e3).thread with m_pExInfoStackHead :=
              ((Thread.PushExInfo (Thread.PushExInfo (Thread.PushExInfo m e1) e2) e3).exInfoAt
                e3).m_pPrevExInfo } } e2 l2 = true := by
      rw [Thread.ValidateExInfoPop_iff]
      exact ⟨hprev3.symm, hpos2⟩
    have hv1 : Thread.ValidateExInfoPop
        { Thread.PushExInfo (Thread.PushExInfo (Thread.PushExInfo m e1) e2) e3 with
          thread := { (Thread.PushExInfo (Thread.PushExInfo (Thread.PushExInfo m e1) e2)
            e3).thread with m_pExInfoStackHead :=
              ((Thread.PushExInfo (Thread.PushExInfo (Thread.PushExInfo m e1) e2) e3).exInfoAt
                e2).m_pPrevExInfo } } e1 l1 = true := by
      rw [Thread.ValidateExInfoPop_iff]
      exact ⟨hprev2.symm, hpos1⟩
    refine ⟨_, _, _, Thread.popExInfo_of_valid _ _ _ hv3, hprev3, hv2,
      Thread.popExInfo_of_valid _ _ _ hv2, hprev2, hv1, Thread.popExInfo_of_valid _ _ _ hv1,
      hprev1⟩

/-- Witness for C3: in the sample machine, with E1, E2, E3 at `0x6300`, `0x6200`, `0x6100`
pushed in that order, popping E2 first fails and popping E3 with limit `0x6180` passes. -/
theorem validateExInfoPop_head_and_limit_witness :
    Thread.ValidateExInfoPop
        (Thread.PushExInfo (Thread.PushExInfo (Thread.PushExInfo sampleMachine 0x6300) 0x6200)
          0x6100) 0x6200 0x6280 = false ∧
      Thread.ValidateExInfoPop
        (Thread.PushExInfo (Thread.PushExInfo (Thread.PushExInfo sampleMachine 0x6300) 0x6200)
          0x6100) 0x6100 0x6180 = true :=
  have h := (validateExInfoPop_head_and_limit sampleMachine).2 0x6300 0x6200 0x6100
    0x6380 0x6280 0x6180 (by decide) (by decide) (by decide) (by decide) (by decide)
    (by decide) (by decide) (by decide)
  ⟨h.1 0x6280, h.2.1⟩

/-! ### Root scanning -/

/-- With enough fuel the chain loop reports the exception object of every record of the chain,
newest first. -/
theorem Thread.reportExInfoChain_of_chain (exInfoAt : Nat → ExInfo) (entries : List Nat) :
    ∀ (p fuel : Nat), exInfoChain exInfoAt p entries → entries.length ≤ fuel →
      Thread.reportExInfoChain exInfoAt fuel p =
        some (entries.map (fun e => (exInfoAt e).m_exception)) := by
  induction entries with
  | nil =>
    intro p fuel hchain _
    simp only [exInfoChain] at hchain
    subst hchain
    unfold Thread.reportExInfoChain
    simp
  | cons e rest ih =>
    intro p fuel hchain hfuel
    simp only [exInfoChain] at hchain
    obtain ⟨hp, hne, hrest⟩ := hchain
    subst hp
    cases fuel with
    | zero => simp at hfuel
    | succ fuel =>
      unfold Thread.reportExInfoChain
      simp only [hne, if_false]
      rw [ih _ fuel hrest (by simpa using hfuel)]
      simp

/-- C4: for a thread with a committed safe point whose exception-info chain has the `N`
records `entries`, `GcScanRoots` (given fuel for `N` records) invokes the callback for the
roots the stack walk finds and then once per chain record for its `m_exception`:
`N` additional reports, duplicates included; with an empty chain it reports only the
stack-walk roots. -/
theorem gcScanRoots_reports_exceptions (m : Machine) (stackWalk : Nat → List Nat)
    (isCurrentThread : Bool) (liveContext fuel start : Nat) (entries : List Nat)
    (hstart : Thread.scanStart m.thread isCurrentThread liveContext = some start)
    (hchain : exInfoChain m.exInfoAt m.thread.m_pExInfoStackHead entries)
    (hfuel : entries.length ≤ fuel) :
    ∃ reported : List Nat,
      Thread.GcScanRoots m stackWalk isCurrentThread liveContext fuel = some reported ∧
      reported = stackWalk start ++ entries.map (fun e => (m.exInfoAt e).m_exception) ∧
      reported.length = (stackWalk start).length + entries.length ∧
      (∀ e ∈ entries, (m.exInfoAt e).m_exception ∈ reported.drop (stackWalk start).length) ∧
      (entries.length = 0 → reported = stackWalk start) := by
  refine ⟨_, ?_, rfl, ?_, ?_, ?_⟩
  · simp only [Thread.GcScanRoots, hstart, Thread.GcScanRootsWorker]
    rw [Thread.reportExInfoChain_of_chain m.exInfoAt entries _ fuel hchain hfuel]
    rfl
  · simp
  · intro e he
    simp only [List.drop_left]
    exact List.mem_map_of_mem _ he
  · intro h0
    have : entries = [] := List.length_eq_zero.mp h0
    simp [this]

/-- Witness for C4: scanning the sample machine reports the two stack roots and then the three
exception objects, among them `0xA2` a second time. -/
theorem gcScanRoots_reports_exceptions_witness :
    Thread.GcScanRoots scanMachine sampleStackWalk false 0 3 =
      some [0xB1, 0xA2, 0xA3, 0xA2, 0xA1] := by
  obtain ⟨reported, hrun, hrep, _⟩ :=
    gcScanRoots_reports_exceptions scanMachine sampleStackWalk false 0 3 0x7100
      [0x6100, 0x6200, 0x6300] (by decide)
      ⟨rfl, by decide, rfl, by decide, rfl, by decide, rfl⟩ (by decide)
  rw [hrun, hrep]
  rfl

/-! ### Reverse-entry gate -/

/-- Writing one cell leaves the others alone. -/
theorem tlsCells_getD_set_ne (l : List Nat) (i j v : Nat) (h : i ≠ j) :
    (l.set i v).getD j 0 = l.getD j 0 := by
  simp [List.getD_eq_getElem?_getD, List.getElem?_set_ne h]

/-- Writing a cell of the table stores the value there. -/
theorem tlsCells_getD_set_self (l : List Nat) (i v : Nat) (h : i < l.length) :
    (l.set i v).getD i 0 = v := by
  simp [List.getD_eq_getElem?_getD, List.getElem?_set_self, h]

/-- A non-null cell lies inside the table. -/
theorem tlsCells_lt_of_getD_ne_zero (l : List Nat) (i : Nat) (h : l.getD i 0 ≠ 0) :
    i < l.length := by
  by_contra hlt
  apply h
  simp [List.getD_eq_getElem?_getD, List.getElem?_eq_none (not_lt.mp hlt)]

/-- Growing the table keeps the cells it had. -/
theorem tlsCells_getD_grow_left (l : List Nat) (n k i : Nat) (hi : i < n) (hl : i < l.length) :
    (l.take n ++ List.replicate k 0).getD i 0 = l.getD i 0 := by
  have h1 : i < (l.take n).length := by simp; omega
  simp only [List.getD_eq_getElem?_getD]
  rw [List.getElem?_append_left h1, List.getElem?_take_of_lt hi]

/-- The cells added by growing the table are null. -/
theorem tlsCells_getD_grow_right (l : List Nat) (k i : Nat) (hl : l.length ≤ i) :
    (l ++ List.replicate k 0).getD i 0 = 0 := by
  simp only [List.getD_eq_getElem?_getD]
  rw [List.getElem?_append_right hl]
  rw [List.getElem?_replicate]
  split <;> simp

/-- C6: `GetThreadLocalStorageForDynamicType(o)` after
`AllocateThreadLocalStorageForDynamicType(o, size, cellCount)` returns the pointer the
allocation returned (the allocator's block when the offset had no storage yet); an allocation
never shrinks the cell table; and every offset that already has storage keeps its pointer
across any later allocation, in particular one that grows the table. -/
theorem tls_allocate_get_roundtrip (t : ThreadBuffer)
    (uTlsTypeOffset tlsStorageSize numTlsCells pTlsStorage : Nat) :
    Thread.GetThreadLocalStorageForDynamicType
        (Thread.AllocateThreadLocalStorageForDynamicType t uTlsTypeOffset tlsStorageSize
          numTlsCells pTlsStorage).2 uTlsTypeOffset =
      (Thread.AllocateThreadLocalStorageForDynamicType t uTlsTypeOffset tlsStorageSize
        numTlsCells pTlsStorage).1 ∧
    t.m_numDynamicTypesTlsCells ≤
      (Thread.AllocateThreadLocalStorageForDynamicType t uTlsTypeOffset tlsStorageSize
        numTlsCells pTlsStorage).2.m_numDynamicTypesTlsCells ∧
    (∀ earlierOffset : Nat,
      Thread.GetThreadLocalStorageForDynamicType t earlierOffset ≠ 0 →
      Thread.GetThreadLocalStorageForDynamicType
          (Thread.AllocateThreadLocalStorageForDynamicType t uTlsTypeOffset tlsStorageSize
            numTlsCells pTlsStorage).2 earlierOffset =
        Thread.GetThreadLocalStorageForDynamicType t earlierOffset) ∧
    (t.tlsCellsConsistent →
      (Thread.AllocateThreadLocalStorageForDynamicType t uTlsTypeOffset tlsStorageSize
        numTlsCells pTlsStorage).2.tlsCellsConsistent ∧
      (Thread.GetThreadLocalStorageForDynamicType t uTlsTypeOffset = 0 →
        (Thread.AllocateThreadLocalStorageForDynamicType t uTlsTypeOffset tlsStorageSize
          numTlsCells pTlsStorage).1 = pTlsStorage)) := by
  by_cases hgrow : t.m_numDynamicTypesTlsCells ≤ uTlsTypeOffset
  · -- the table grows
    have htake : (t.m_pDynamicTypesTlsCells.take t.m_numDynamicTypesTlsCells).length ≤
        uTlsTypeOffset := by
      simp only [List.length_take]; omega
    have hnull : (t.m_pDynamicTypesTlsCells.take t.m_numDynamicTypesTlsCells ++
        List.replicate (max numTlsCells (uTlsTypeOffset + 1) -
          (t.m_pDynamicTypesTlsCells.take t.m_numDynamicTypesTlsCells).length) 0).getD
            uTlsTypeOffset 0 = 0 :=
      tlsCells_getD_grow_right _ _ _ htake
    have hlen : (t.m_pDynamicTypesTlsCells.take t.m_numDynamicTypesTlsCells ++
        List.replicate (max numTlsCells (uTlsTypeOffset + 1) -
          (t.m_pDynamicTypesTlsCells.take t.m_numDynamicTypesTlsCells).length) 0).length =
            max numTlsCells (uTlsTypeOffset + 1) := by
      simp only [List.length_append, List.length_replicate]
      omega
    have hmax : ¬ max numTlsCells (uTlsTypeOffset + 1) ≤ uTlsTypeOffset := by omega
    simp only [Thread.AllocateThreadLocalStorageForDynamicType, hgrow, if_true, hnull,
      Thread.GetThreadLocalStorageForDynamicType, hmax, if_false]
    refine ⟨trivial, by omega, ?_, ?_⟩
    · intro earlierOffset hne
      by_cases hlt : t.m_numDynamicTypesTlsCells ≤ earlierOffset
      · simp [hlt] at hne
      · simp only [hlt, if_false] at hne ⊢
        have hin := tlsCells_lt_of_getD_ne_zero _ _ hne
        have hmax2 : ¬ max numTlsCells (uTlsTypeOffset + 1) ≤ earlierOffset := by omega
        rw [if_neg hmax2, tlsCells_getD_set_ne _ _ _ _ (by omega),
          tlsCells_getD_grow_left _ _ _ _ (by omega) hin]
    · intro _
      refine ⟨?_, ?_⟩
      · simp only [ThreadBuffer.tlsCellsConsistent, List.length_set]
        exact hlen
      · intro _
        exact tlsCells_getD_set_self _ _ _ (by rw [hlen]; omega)
  · -- the table already has a cell for the offset
    simp only [Thread.AllocateThreadLocalStorageForDynamicType, hgrow, if_false,
      Thread.GetThreadLocalStorageForDynamicType]
    by_cases hcell : t.m_pDynamicTypesTlsCells.getD uTlsTypeOffset 0 = 0
    · simp only [hcell, if_true, hgrow, if_false]
      refine ⟨trivial, le_refl _, ?_, ?_⟩
      · intro earlierOffset hne
        by_cases hlt : t.m_numDynamicTypesTlsCells ≤ earlierOffset
        · simp [hlt] at hne
        · simp only [hlt, if_false] at hne ⊢
          have hneq : uTlsTypeOffset ≠ earlierOffset := by
            intro h; subst h; exact hne hcell
          exact tlsCells_getD_set_ne _ _ _ _ hneq
      · intro hcons
        refine ⟨?_, ?_⟩
        · simpa [ThreadBuffer.tlsCellsConsistent] using hcons
        · intro _
          exact tlsCells_getD_set_self _ _ _ (by
            unfold ThreadBuffer.tlsCellsConsistent at hcons; omega)
    · simp only [hcell, if_false, hgrow]
      refine ⟨trivial, le_refl _, fun _ _ => trivial, ?_⟩
      intro hcons
      refine ⟨hcons, ?_⟩
      intro h0
      exact False.elim h0

/-- Witness for C6: a fresh thread allocates storage `0x8000` for offset 1 in a table of 2
cells; a later allocation for offset 5 grows the table to 8 cells, and offset 1 still yields
`0x8000`. -/
theorem tls_allocate_get_roundtrip_witness :
    (Thread.AllocateThreadLocalStorageForDynamicType ThreadBuffer.fresh 1 16 2
      0x8000).2.m_numDynamicTypesTlsCells = 2 ∧
    (Thread.AllocateThreadLocalStorageForDynamicType
      (Thread.AllocateThreadLocalStorageForDynamicType ThreadBuffer.fresh 1 16 2 0x8000).2
      5 8 8 0x8100).2.m_numDynamicTypesTlsCells = 8 ∧
    Thread.GetThreadLocalStorageForDynamicType
      (Thread.AllocateThreadLocalStorageForDynamicType
        (Thread.AllocateThreadLocalStorageForDynamicType ThreadBuffer.fresh 1 16 2 0x8000).2
        5 8 8 0x8100).2 1 = 0x8000 :=
  ⟨by decide, by decide,
    ((tls_allocate_get_roundtrip
      (Thread.AllocateThreadLocalStorageForDynamicType ThreadBuffer.fresh 1 16 2 0x8000).2
      5 8 8 0x8100).2.2.1 1 (by decide)).trans (by decide)⟩

/-! ### JIT host -/

/-- Witness for C10: on a heap that grants the request, for the provider of the value `abc`
the host returns the four characters `a`, `b`, `c` and the terminator. -/
theorem getStringConfigValue_contract_witness :
    JitHost.getStringConfigValue 64 2 ampleHeap abcProvider [] =
      CallOutcome.returned (some [97, 98, 99, 0]) := by
  obtain ⟨cells, hrun, hcells, _⟩ :=
    (getStringConfigValue_contract 64 2 ampleHeap abcProvider [] 3 rfl).2.2
      (by decide) (by decide) (by decide) (by decide) (by decide) (by decide)
  rw [hrun, hcells]
  rfl
